import Mathlib

/-!
Shallow embedding of the c99extend concurrency core (queue.c, thread_pool.c,
adv_thread.c) and proofs about it.

Modelling conventions:
- The FIFO queue's linked list is represented by the list of payloads on the
  chain of nodes reachable from `head`; `head == NULL` corresponds to that
  list being empty.  The `tail` pointer is tracked only through its nullness
  (`tailNull`), which is the only fact about `tail` the code branches on.
- `size` is a `size_t`; increments and decrements are taken modulo `2 ^ 64`.
- Allocation (`malloc`) outcomes are passed in explicitly as a Boolean oracle.
- Locks make each critical section atomic, so each locked region of the C code
  becomes one atomic step of the model; blocking (on the `items` semaphore or
  on the pool's condition variable) is represented by `Option`/outcome values.
-/

namespace C99Extend

/-- Increment of a `size_t` counter (wraps at `2 ^ 64`). -/
def inc64 (n : Nat) : Nat := (n + 1) % 2 ^ 64

/-- Decrement of a `size_t` counter (wraps at `2 ^ 64`). -/
def dec64 (n : Nat) : Nat := (n + (2 ^ 64 - 1)) % 2 ^ 64

/-- State of a `Queue` from queue.h: the payloads reachable from `head`
(`elems`), the `size` field, and whether `tail` is `NULL` (`tailNull`).
The two semaphores are not part of the observable data state. -/
structure QueueState (V : Type) where
  elems : List V
  size : Nat
  tailNull : Bool
deriving DecidableEq, Repr

/-- State produced by a successful `queue_create()`:
`head = NULL`, `tail = NULL`, `size = 0`. -/
def queue_create (V : Type) : QueueState V := ⟨[], 0, true⟩

/-- queue.c `queue_push`: if node allocation fails the function returns with
the queue untouched; otherwise the node is linked at the tail (or becomes both
head and tail when `tail == NULL`) and `size` is incremented. -/
def queue_push {V : Type} (allocOk : Bool) (q : QueueState V) (v : V) : QueueState V :=
  if allocOk = false then q
  else if q.tailNull then ⟨[v], inc64 q.size, false⟩
  else ⟨q.elems ++ [v], inc64 q.size, false⟩

/-- queue.c `queue_pop` on a non-NULL queue: waits on the `items` semaphore,
then unlinks the head node and returns its data.  In a sequential run, a pop
on an empty queue blocks forever: modelled as `none`.  `tail` is set to `NULL`
exactly when the new `head` is `NULL`. -/
def queue_pop {V : Type} (q : QueueState V) : Option (V × QueueState V) :=
  match q.elems with
  | [] => none
  | d :: rest =>
    some (d, ⟨rest, dec64 q.size, if rest.isEmpty then true else q.tailNull⟩)

/-- The C signature of `queue_push` returns `void`: the call's value channel is
`Unit`.  The pair is (queue state after the call, value returned to caller). -/
def queue_push_call {V : Type} (allocOk : Bool) (q : QueueState V) (v : V) :
    QueueState V × Unit :=
  (queue_push allocOk q v, ())

/-- Formalisation of “a node-allocation failure in `queue_push` is surfaced to
the caller as an error”: the value returned by a failing call differs from the
value returned by a succeeding call. -/
def push_failure_surfaced {V : Type} (q : QueueState V) (v : V) : Prop :=
  (queue_push_call false q v).2 ≠ (queue_push_call true q v).2

/-- Modelled from the spec (§4.3): a `push` that propagates allocation failure
to the caller as an error, for comparison with the source's `queue_push`. -/
def spec_queue_push {V : Type} (allocOk : Bool) (q : QueueState V) (v : V) :
    Except Unit (QueueState V) :=
  if allocOk then Except.ok (queue_push true q v) else Except.error ()

/-- queue.c `queue_pop` including the `if (!q) return NULL;` guard.  The outer
`none` means the call blocks; `some (returned pointer, queue after the call)`
means it returns.  A `NULL` queue returns `NULL` at once, touching nothing. -/
def queue_pop_c {V : Type} : Option (QueueState V) → Option (Option V × Option (QueueState V))
  | none => some (none, none)
  | some s =>
    match queue_pop s with
    | none => none
    | some (d, s') => some (some d, some s')

/-- queue.c `queue_is_empty`, including the `if (!q) return true;` guard. -/
def queue_is_empty_c {V : Type} : Option (QueueState V) → Bool
  | none => true
  | some s => decide (s.size = 0)

/-- queue.c `queue_size`, including the `if (!q) return 0;` guard. -/
def queue_size_c {V : Type} : Option (QueueState V) → Nat
  | none => 0
  | some s => s.size

/-- A queue operation: a push of a value (with node allocation succeeding) or
a blocking pop. -/
inductive QOp (V : Type) where
  | push : V → QOp V
  | pop : QOp V
deriving DecidableEq, Repr

/-- Number of pushes in an operation sequence. -/
def pushCount {V : Type} : List (QOp V) → Nat
  | [] => 0
  | QOp.push _ :: ops => pushCount ops + 1
  | QOp.pop :: ops => pushCount ops

/-- Number of pops in an operation sequence. -/
def popCount {V : Type} : List (QOp V) → Nat
  | [] => 0
  | QOp.push _ :: ops => popCount ops
  | QOp.pop :: ops => popCount ops + 1

/-- Run a sequence of queue operations sequentially, collecting the values
returned by the pops.  A pop on an empty queue blocks forever (`none`). -/
def queue_run {V : Type} : List (QOp V) → QueueState V → Option (QueueState V × List V)
  | [], q => some (q, [])
  | QOp.push v :: ops, q => queue_run ops (queue_push true q v)
  | QOp.pop :: ops, q =>
    match queue_pop q with
    | none => none
    | some (d, q') =>
      match queue_run ops q' with
      | none => none
      | some (qf, outs) => some (qf, d :: outs)

/-- State of a `ThreadPool` from thread_pool.c: the shutdown flag, the chain
of task nodes reachable from `task_head` (each node holding `fn` and `arg`),
and whether `task_tail` is `NULL`.  The worker array and the mutex/condition
pair are not part of the observable data state. -/
structure PoolState (F A : Type) where
  shutdown_flag : Bool
  tasks : List (F × A)
  tailNull : Bool
deriving DecidableEq, Repr

/-- Pool state produced by a successful `thread_pool_create`:
`shutdown_flag = false`, `task_head = task_tail = NULL`. -/
def thread_pool_create_state (F A : Type) : PoolState F A := ⟨false, [], true⟩

/-- The enqueue step of `thread_pool_submit`: link the new node after
`task_tail`, or make it both head and tail when `task_tail == NULL`. -/
def poolEnqueue {F A : Type} (p : PoolState F A) (f : F) (a : A) : PoolState F A :=
  if p.tailNull then ⟨p.shutdown_flag, [(f, a)], false⟩
  else ⟨p.shutdown_flag, p.tasks ++ [(f, a)], false⟩

/-- thread_pool.c `thread_pool_submit`.  Result: (return value,
pool state after the call, whether `pthread_cond_signal` was issued).
`NULL` pool or `NULL` fn is rejected before taking the lock; under the lock a
set shutdown flag rejects; then node allocation may fail; otherwise the task
is enqueued and one waiting worker is signaled. -/
def thread_pool_submit {F A : Type} (pool : Option (PoolState F A)) (fn : Option F)
    (arg : A) (allocOk : Bool) : Bool × Option (PoolState F A) × Bool :=
  match pool, fn with
  | some p, some f =>
    if p.shutdown_flag then (false, some p, false)
    else if allocOk = false then (false, some p, false)
    else (true, some (poolEnqueue p f arg), true)
  | _, _ => (false, pool, false)

/-- The effect of one `thread_pool_submit` call on the pool state alone. -/
def submitState {F A : Type} (p : PoolState F A) (f : F) (a : A) (allocOk : Bool) :
    PoolState F A :=
  if p.shutdown_flag then p
  else if allocOk = false then p
  else poolEnqueue p f a

/-- Outcome of one iteration of the worker loop, observed at the moment the
worker holds the lock: the worker suspends on the condition variable, exits
the loop (the thread terminates), or dequeues the head task and runs it. -/
inductive WorkerStep (F A : Type) where
  | block : WorkerStep F A
  | leave : WorkerStep F A
  | run : F → A → PoolState F A → WorkerStep F A
deriving DecidableEq, Repr

/-- thread_pool.c `thread_pool_worker`, one iteration under the lock:
while `!shutdown_flag && task_head == NULL` wait on the condition; if
`shutdown_flag && task_head == NULL` break out of the loop; otherwise unlink
the head task node (setting `task_tail = NULL` when the list empties) and run
`task->fn(task->arg)` outside the lock. -/
def thread_pool_worker_step {F A : Type} (p : PoolState F A) : WorkerStep F A :=
  match p.tasks with
  | [] => if p.shutdown_flag then WorkerStep.leave else WorkerStep.block
  | (f, a) :: rest =>
    WorkerStep.run f a
      ⟨p.shutdown_flag, rest, if rest.isEmpty then true else p.tailNull⟩

/-- Iterate the worker loop for at most `fuel` iterations, collecting the
`(fn, arg)` pairs the worker executes, in order.  The Boolean records whether
the loop exited (the thread terminated) within the fuel. -/
def thread_pool_worker_run {F A : Type} : Nat → PoolState F A → List (F × A) × Bool
  | 0, _ => ([], false)
  | fuel + 1, p =>
    match thread_pool_worker_step p with
    | WorkerStep.leave => ([], true)
    | WorkerStep.block => ([], false)
    | WorkerStep.run f a p' =>
      let r := thread_pool_worker_run fuel p'
      ((f, a) :: r.1, r.2)

/-- The flag-setting step of `thread_pool_destroy`, done under the lock before
broadcasting the condition and joining the workers. -/
def signalShutdown {F A : Type} (p : PoolState F A) : PoolState F A :=
  ⟨true, p.tasks, p.tailNull⟩

/-- A pool task-list operation: a submit, one worker dequeue attempt, or the
destroy-side setting of the shutdown flag. -/
inductive PoolOp (F A : Type) where
  | submit : F → A → Bool → PoolOp F A
  | dequeue : PoolOp F A
  | shutdown : PoolOp F A
deriving DecidableEq, Repr

/-- Run a sequence of pool operations sequentially (each one is a critical
section under the pool's lock).  A dequeue attempt on an empty list leaves the
state unchanged (the worker blocks or exits without touching the list). -/
def pool_run {F A : Type} : List (PoolOp F A) → PoolState F A → PoolState F A
  | [], p => p
  | PoolOp.submit f a ok :: ops, p => pool_run ops (submitState p f a ok)
  | PoolOp.dequeue :: ops, p =>
    match thread_pool_worker_step p with
    | WorkerStep.run _ _ p' => pool_run ops p'
    | _ => pool_run ops p
  | PoolOp.shutdown :: ops, p => pool_run ops (signalShutdown p)

/-- State of a `Thread` from adv_thread.h: the four Boolean flags and the
name.  The native identity and the stored closure pointers are opaque; the
trampoline's lifecycle is tracked separately by `CreateResult`. -/
structure ThreadState where
  started : Bool
  joined : Bool
  killed : Bool
  is_alive : Bool
  name : String
deriving DecidableEq, Repr

/-- adv_thread.c `Thread_init` with a `NULL` name: all flags false, name
falls back to `"Thread"`. -/
def Thread_init_state : ThreadState := ⟨false, false, false, false, "Thread"⟩

/-- adv_thread.c `Thread_start`: no-op on an already-started handle; sets
`started = true`, then creates the native thread — on native failure resets
`started = false`.  The Boolean result records whether a native thread was
spawned (so that the bootstrap will run the stored closure). -/
def Thread_start (nativeOk : Bool) (t : ThreadState) : ThreadState × Bool :=
  if t.started then (t, false)
  else if nativeOk then ({ t with started := true }, true)
  else ({ t with started := false }, false)

/-- adv_thread.c `Thread_join` on a non-NULL handle (POSIX branch): returns
at once when never started or already joined; otherwise sets `joined = true`
and blocks in `pthread_join` (which changes no field of the handle). -/
def Thread_join (t : ThreadState) : ThreadState :=
  if t.started = false ∨ t.joined = true then t
  else { t with joined := true }

/-- adv_thread.c `thread_join`: `-1` on a `NULL` handle; `0` (at once) when
never started or already joined; otherwise `Thread_join` then `0`. -/
def thread_join (t : Option ThreadState) : Int × Option ThreadState :=
  match t with
  | none => (-1, none)
  | some t0 =>
    if t0.started = false ∨ t0.joined = true then (0, some t0)
    else (0, some (Thread_join t0))

/-- adv_thread.c `Thread_is_alive`, including the `if (!t) return false;`
guard. -/
def Thread_is_alive : Option ThreadState → Bool
  | none => false
  | some t => t.is_alive

/-- Observable result of one `thread_create` call: the returned `int`, the
handle's state after the call, whether the trampoline block was allocated,
whether it was freed by `thread_create` itself, and whether a native thread
was spawned (hence whether the user closure will run). -/
structure CreateResult where
  ret : Int
  thread : Option ThreadState
  trampolineAllocated : Bool
  trampolineFreed : Bool
  spawned : Bool
deriving DecidableEq, Repr

/-- adv_thread.c `thread_create`: rejects a `NULL` handle or `NULL` routine;
allocates the trampoline (may fail); `Thread_init` with the trampoline target
and `NULL` name; `Thread_start`; if the handle did not start, frees the
trampoline and returns `-1`, else returns `0`. -/
def thread_create (t : Option ThreadState) (fnValid : Bool)
    (allocOk : Bool) (nativeOk : Bool) : CreateResult :=
  match t with
  | none => ⟨-1, none, false, false, false⟩
  | some t0 =>
    if fnValid = false then ⟨-1, some t0, false, false, false⟩
    else if allocOk = false then ⟨-1, some t0, false, false, false⟩
    else
      let t1 := Thread_init_state
      let s := Thread_start nativeOk t1
      if s.1.started = false then ⟨-1, some s.1, true, true, false⟩
      else ⟨0, some s.1, true, false, s.2⟩

/-- Structural invariant of a reachable queue state: `size` counts the nodes
reachable from `head`, and `tail` is `NULL` exactly when `head` is. -/
def QueueWF {V : Type} (q : QueueState V) : Prop :=
  q.size = q.elems.length ∧ (q.tailNull = true ↔ q.elems = [])

/-- Well-formedness of the pool task list: `task_tail` is `NULL` exactly when
`task_head` is. -/
def PoolWF {F A : Type} (p : PoolState F A) : Prop := p.tailNull = true ↔ p.tasks = []

/-! Helper lemmas. -/

theorem inc64_eq_succ {n : Nat} (h : n + 1 < 2 ^ 64) : inc64 n = n + 1 :=
  Nat.mod_eq_of_lt h

theorem dec64_eq_pred {n : Nat} (h1 : 1 ≤ n) (h2 : n < 2 ^ 64) : dec64 n = n - 1 := by
  unfold dec64
  have h3 : n + (2 ^ 64 - 1) = (n - 1) + 2 ^ 64 := by omega
  rw [h3, Nat.add_mod_right]
  exact Nat.mod_eq_of_lt (by omega)

theorem queue_push_true_elems {V : Type} (q : QueueState V) (v : V)
    (hiff : q.tailNull = true ↔ q.elems = []) :
    (queue_push true q v).elems = q.elems ++ [v] ∧
    (queue_push true q v).size = inc64 q.size ∧
    (queue_push true q v).tailNull = false := by
  unfold queue_push
  by_cases htn : q.tailNull = true
  · have he : q.elems = [] := hiff.mp htn
    simp [htn, he]
  · have htn' : q.tailNull = false := by
      cases h : q.tailNull
      · rfl
      · exact absurd h htn
    simp [htn']

/-- Running a queue-operation sequence from a well-formed state preserves
well-formedness and leaves `pushCount − popCount` net elements, provided the
node count stays below `2 ^ 64` (guaranteed on a real machine by memory). -/
theorem queue_run_inv {V : Type} (ops : List (QOp V)) :
    ∀ (q q' : QueueState V) (outs : List V),
      queue_run ops q = some (q', outs) →
      QueueWF q →
      q.elems.length + pushCount ops < 2 ^ 64 →
      QueueWF q' ∧
      q'.elems.length + popCount ops = q.elems.length + pushCount ops ∧
      popCount ops ≤ q.elems.length + pushCount ops := by
  induction ops with
  | nil =>
    intro q q' outs hrun hwf hbound
    simp only [queue_run, Option.some.injEq, Prod.mk.injEq] at hrun
    obtain ⟨hq, _⟩ := hrun
    subst hq
    simpa [pushCount, popCount] using hwf
  | cons op ops ih =>
    intro q q' outs hrun hwf hbound
    cases op with
    | push v =>
      simp only [queue_run] at hrun
      obtain ⟨hsz, hiff⟩ := hwf
      have hpc : pushCount (QOp.push v :: ops) = pushCount ops + 1 := rfl
      have hpop : popCount (QOp.push v :: ops) = popCount ops := rfl
      obtain ⟨he2, hs2, ht2⟩ := queue_push_true_elems q v hiff
      have hlen2 : (queue_push true q v).elems.length = q.elems.length + 1 := by
        rw [he2]; simp
      have hwf2 : QueueWF (queue_push true q v) := by
        refine ⟨?_, ?_⟩
        · rw [hs2, hlen2, ← hsz, inc64_eq_succ]
          rw [hsz]
          omega
        · rw [ht2, he2]
          simp
      have hbound2 : (queue_push true q v).elems.length + pushCount ops < 2 ^ 64 := by
        rw [hlen2]; omega
      obtain ⟨hwf', hnet, hle⟩ := ih (queue_push true q v) q' outs hrun hwf2 hbound2
      refine ⟨hwf', ?_, ?_⟩ <;> rw [hpc, hpop] <;> omega
    | pop =>
      simp only [queue_run] at hrun
      obtain ⟨hsz, hiff⟩ := hwf
      cases helems : q.elems with
      | nil =>
        rw [queue_pop, helems] at hrun
        simp at hrun
      | cons d rest =>
        rw [queue_pop, helems] at hrun
        simp only [] at hrun
        cases hrec : queue_run ops
            (⟨rest, dec64 q.size, if rest.isEmpty then true else q.tailNull⟩ : QueueState V) with
        | none => rw [hrec] at hrun; simp at hrun
        | some r =>
          obtain ⟨qf, outs'⟩ := r
          rw [hrec] at hrun
          simp only [Option.some.injEq, Prod.mk.injEq] at hrun
          obtain ⟨hq'eq, _⟩ := hrun
          subst hq'eq
          have hlenq : q.elems.length = rest.length + 1 := by rw [helems]; simp
          have hszlt : q.size < 2 ^ 64 := by omega
          have hszge : 1 ≤ q.size := by rw [hsz]; omega
          have hwf2 : QueueWF
              (⟨rest, dec64 q.size, if rest.isEmpty then true else q.tailNull⟩ : QueueState V) := by
            refine ⟨?_, ?_⟩
            · show dec64 q.size = rest.length
              rw [dec64_eq_pred hszge hszlt, hsz, hlenq]
              omega
            · show (if rest.isEmpty then true else q.tailNull) = true ↔ rest = []
              cases hre : rest with
              | nil => simp
              | cons x xs =>
                have : q.tailNull = false := by
                  cases htn : q.tailNull
                  · rfl
                  · have := hiff.mp htn
                    rw [helems] at this
                    exact absurd this (by simp)
                simp [this]
          have hbound2 : rest.length + pushCount ops < 2 ^ 64 := by
            have hpc : pushCount (QOp.pop :: ops) = pushCount ops := rfl
            omega
          obtain ⟨hwf', hnet, hle⟩ := ih _ _ outs' hrec hwf2 hbound2
          have e1 : qf.elems.length + popCount ops = rest.length + pushCount ops := hnet
          have e2 : popCount ops ≤ rest.length + pushCount ops := hle
          have hpc : pushCount (QOp.pop :: ops) = pushCount ops := rfl
          have hpop : popCount (QOp.pop :: ops) = popCount ops + 1 := rfl
          refine ⟨hwf', ?_, ?_⟩
          · show qf.elems.length + popCount (QOp.pop :: ops) =
              (d :: rest).length + pushCount (QOp.pop :: ops)
            rw [hpop, hpc]
            simp only [List.length_cons]
            omega
          · show popCount (QOp.pop :: ops) ≤ (d :: rest).length + pushCount (QOp.pop :: ops)
            rw [hpop, hpc]
            simp only [List.length_cons]
            omega

theorem queue_run_pushes {V : Type} (vs : List V) (ops : List (QOp V)) :
    ∀ q : QueueState V,
      queue_run (vs.map QOp.push ++ ops) q =
        queue_run ops (vs.foldl (queue_push true) q) := by
  induction vs with
  | nil => intro q; rfl
  | cons v vs ih =>
    intro q
    simp only [List.map_cons, List.cons_append, queue_run, List.foldl_cons]
    exact ih (queue_push true q v)

theorem foldl_push_spec {V : Type} (vs : List V) :
    ∀ q : QueueState V, (q.tailNull = true ↔ q.elems = []) →
      (vs.foldl (queue_push true) q).elems = q.elems ++ vs ∧
      ((vs.foldl (queue_push true) q).tailNull = true ↔ q.elems ++ vs = []) := by
  induction vs with
  | nil =>
    intro q h
    constructor
    · simp
    · simpa using h
  | cons v vs ih =>
    intro q h
    obtain ⟨he, _, ht⟩ := queue_push_true_elems q v h
    have h2 : (queue_push true q v).tailNull = true ↔ (queue_push true q v).elems = [] := by
      rw [ht, he]; simp
    obtain ⟨ih1, ih2⟩ := ih (queue_push true q v) h2
    constructor
    · rw [List.foldl_cons, ih1, he]
      simp
    · rw [List.foldl_cons, ih2, he]
      simp

theorem queue_run_pops {V : Type} (es : List V) :
    ∀ q : QueueState V, q.elems = es →
      ∃ qf : QueueState V,
        queue_run (List.replicate es.length QOp.pop) q = some (qf, es) := by
  induction es with
  | nil =>
    intro q _
    exact ⟨q, rfl⟩
  | cons d rest ih =>
    intro q h
    obtain ⟨qf, hqf⟩ :=
      ih (⟨rest, dec64 q.size, if rest.isEmpty then true else q.tailNull⟩ : QueueState V) rfl
    refine ⟨qf, ?_⟩
    simp only [List.length_cons, List.replicate_succ, queue_run, queue_pop, h]
    rw [hqf]

theorem poolEnqueue_wf {F A : Type} (p : PoolState F A) (f : F) (a : A) :
    PoolWF (poolEnqueue p f a) := by
  unfold PoolWF poolEnqueue
  by_cases h : p.tailNull = true <;> simp [h]

theorem submitState_wf {F A : Type} (p : PoolState F A) (f : F) (a : A) (ok : Bool)
    (h : PoolWF p) : PoolWF (submitState p f a ok) := by
  unfold submitState
  by_cases h1 : p.shutdown_flag = true
  · simpa [h1] using h
  · by_cases h2 : ok = true
    · simp only [h1, if_false, Bool.not_eq_true] at *
      simpa [h1, h2] using poolEnqueue_wf p f a
    · have h2' : ok = false := by cases ok <;> simp_all
      simp only [Bool.not_eq_true] at h1
      simpa [h1, h2'] using h

theorem worker_step_run_wf {F A : Type} (p p' : PoolState F A) (f : F) (a : A)
    (h : PoolWF p) (hstep : thread_pool_worker_step p = WorkerStep.run f a p') :
    PoolWF p' := by
  unfold thread_pool_worker_step at hstep
  cases htasks : p.tasks with
  | nil =>
    rw [htasks] at hstep
    by_cases hs : p.shutdown_flag = true <;> simp [hs] at hstep
  | cons t rest =>
    obtain ⟨f0, a0⟩ := t
    rw [htasks] at hstep
    simp only [WorkerStep.run.injEq] at hstep
    obtain ⟨_, _, hp'⟩ := hstep
    subst hp'
    unfold PoolWF
    cases hre : rest with
    | nil => simp
    | cons x xs =>
      have htn : p.tailNull = false := by
        cases ht : p.tailNull
        · rfl
        · have := h.mp ht
          rw [htasks] at this
          exact absurd this (by simp)
      simp [htn]

theorem worker_step_leave_iff {F A : Type} (p : PoolState F A)
    (h : thread_pool_worker_step p = WorkerStep.leave) :
    p.shutdown_flag = true ∧ p.tasks = [] := by
  unfold thread_pool_worker_step at h
  cases htasks : p.tasks with
  | nil =>
    rw [htasks] at h
    cases hs : p.shutdown_flag
    · rw [hs] at h
      simp at h
    · exact ⟨rfl, rfl⟩
  | cons t rest =>
    obtain ⟨f0, a0⟩ := t
    rw [htasks] at h
    simp at h

theorem pool_run_wf {F A : Type} (ops : List (PoolOp F A)) :
    ∀ p : PoolState F A, PoolWF p → PoolWF (pool_run ops p) := by
  induction ops with
  | nil => intro p h; exact h
  | cons op ops ih =>
    intro p h
    cases op with
    | submit f a ok => exact ih _ (submitState_wf p f a ok h)
    | dequeue =>
      simp only [pool_run]
      cases hstep : thread_pool_worker_step p with
      | block => exact ih _ h
      | leave => exact ih _ h
      | run f a p' => exact ih _ (worker_step_run_wf p p' f a h hstep)
    | shutdown => exact ih _ h

theorem worker_run_drain {F A : Type} :
    ∀ (ts : List (F × A)) (p : PoolState F A),
      p.tasks = ts → p.shutdown_flag = true →
      thread_pool_worker_run (ts.length + 1) p = (ts, true) := by
  intro ts
  induction ts with
  | nil =>
    intro p h hs
    simp [thread_pool_worker_run, thread_pool_worker_step, h, hs]
  | cons t rest ih =>
    intro p h hs
    obtain ⟨f, a⟩ := t
    have hstep : thread_pool_worker_step p =
        WorkerStep.run f a
          ⟨p.shutdown_flag, rest, if rest.isEmpty then true else p.tailNull⟩ := by
      unfold thread_pool_worker_step
      rw [h]
    have hrec := ih
      (⟨p.shutdown_flag, rest, if rest.isEmpty then true else p.tailNull⟩ : PoolState F A)
      rfl hs
    have hlen : ((f, a) :: rest).length + 1 = rest.length + 1 + 1 := by simp
    rw [hlen, thread_pool_worker_run, hstep]
    simp only []
    rw [hrec]

/-! Claim theorems. -/

/-- Claim C3: for every sequence of P pushes of values v1..vP followed by P
pops, the pops return exactly v1..vP in push order — `queue_push` appends at
the tail and `queue_pop` removes and returns the head. -/
theorem queue_fifo_order {V : Type} (vs : List V) :
    (queue_run (vs.map QOp.push ++ List.replicate vs.length QOp.pop)
        (queue_create V)).map Prod.snd = some vs := by
  rw [queue_run_pushes]
  obtain ⟨h1, _⟩ := foldl_push_spec vs (queue_create V) (by simp [queue_create])
  have helems : (vs.foldl (queue_push true) (queue_create V)).elems = vs := by
    rw [h1]
    simp [queue_create]
  obtain ⟨qf, hqf⟩ := queue_run_pops vs _ helems
  rw [hqf]
  rfl

/-- Claim C4: along every completed sequence of queue operations starting from
`queue_create`, the `size` field equals pushes minus pops, and pops never
exceed pushes (the count stays non-negative).  The bound on the push count
reflects the impossibility of overflowing a `size_t` node counter. -/
theorem queue_size_eq_pushed_minus_popped {V : Type} (ops : List (QOp V))
    (q' : QueueState V) (outs : List V)
    (hrun : queue_run ops (queue_create V) = some (q', outs))
    (hbound : pushCount ops < 2 ^ 64) :
    q'.size = pushCount ops - popCount ops ∧ popCount ops ≤ pushCount ops := by
  have hwf : QueueWF (queue_create V) := ⟨rfl, by simp [queue_create]⟩
  have hb : (queue_create V).elems.length + pushCount ops < 2 ^ 64 := by
    simpa [queue_create] using hbound
  obtain ⟨⟨hsz, _⟩, hnet, hle⟩ := queue_run_inv ops _ q' outs hrun hwf hb
  have h0 : (queue_create V).elems.length = 0 := rfl
  rw [h0] at hnet hle
  constructor
  · rw [hsz]
    omega
  · omega

theorem queue_size_eq_pushed_minus_popped_witness :
    (⟨[], 0, true⟩ : QueueState Nat).size =
        pushCount [QOp.push (5 : Nat), QOp.pop] - popCount [QOp.push (5 : Nat), QOp.pop] ∧
      popCount [QOp.push (5 : Nat), QOp.pop] ≤ pushCount [QOp.push (5 : Nat), QOp.pop] :=
  queue_size_eq_pushed_minus_popped [QOp.push 5, QOp.pop] ⟨[], 0, true⟩ [5]
    (by decide) (by decide)

/-- Claim C8: starting from `queue_create` and `thread_pool_create`, the
invariant “head is NULL iff tail is NULL” (and, for the queue, “size = 0 iff
head is NULL”) holds after every sequence of pushes, pops, submits and worker
dequeues. -/
theorem queue_pool_head_tail_invariant {V F A : Type} :
    (∀ (ops : List (QOp V)) (q' : QueueState V) (outs : List V),
        queue_run ops (queue_create V) = some (q', outs) →
        pushCount ops < 2 ^ 64 →
        ((q'.elems = [] ↔ q'.tailNull = true) ∧ (q'.size = 0 ↔ q'.elems = []))) ∧
    (∀ ops : List (PoolOp F A),
        (pool_run ops (thread_pool_create_state F A)).tasks = [] ↔
          (pool_run ops (thread_pool_create_state F A)).tailNull = true) := by
  constructor
  · intro ops q' outs hrun hbound
    have hwf : QueueWF (queue_create V) := ⟨rfl, by simp [queue_create]⟩
    have hb : (queue_create V).elems.length + pushCount ops < 2 ^ 64 := by
      simpa [queue_create] using hbound
    obtain ⟨⟨hsz, hiff⟩, _, _⟩ := queue_run_inv ops _ q' outs hrun hwf hb
    refine ⟨hiff.symm, ?_, ?_⟩
    · intro h0
      rw [hsz] at h0
      exact List.length_eq_zero.mp h0
    · intro he
      rw [hsz, he]
      rfl
  · intro ops
    have h := pool_run_wf ops (thread_pool_create_state F A)
      (by simp [PoolWF, thread_pool_create_state])
    exact h.symm

theorem queue_pool_head_tail_invariant_witness :
    (((⟨[3], 1, false⟩ : QueueState Nat).elems = [] ↔
        (⟨[3], 1, false⟩ : QueueState Nat).tailNull = true) ∧
      ((⟨[3], 1, false⟩ : QueueState Nat).size = 0 ↔
        (⟨[3], 1, false⟩ : QueueState Nat).elems = [])) ∧
    ((pool_run [PoolOp.submit (1 : Nat) (2 : Nat) true]
        (thread_pool_create_state Nat Nat)).tasks = [] ↔
      (pool_run [PoolOp.submit (1 : Nat) (2 : Nat) true]
        (thread_pool_create_state Nat Nat)).tailNull = true) :=
  ⟨(queue_pool_head_tail_invariant (V := Nat) (F := Nat) (A := Nat)).1
      [QOp.push 3] ⟨[3], 1, false⟩ [] (by decide) (by decide),
   (queue_pool_head_tail_invariant (V := Nat) (F := Nat) (A := Nat)).2
      [PoolOp.submit 1 2 true]⟩

/-- Claim C1: a worker's loop exits only in a state where the shutdown flag is
true and the task list is empty; moreover, once shutdown is set, a worker
starting from a state with T queued tasks executes all of them, in order,
before terminating — the drain-before-exit guarantee of
`thread_pool_destroy`. -/
theorem thread_pool_worker_exit_drain {F A : Type} (p : PoolState F A) :
    (thread_pool_worker_step p = WorkerStep.leave →
      p.shutdown_flag = true ∧ p.tasks = []) ∧
    (p.shutdown_flag = true →
      thread_pool_worker_run (p.tasks.length + 1) p = (p.tasks, true)) :=
  ⟨worker_step_leave_iff p, fun hs => worker_run_drain p.tasks p rfl hs⟩

theorem thread_pool_worker_exit_drain_witness :
    ((⟨true, [], true⟩ : PoolState Nat Nat).shutdown_flag = true ∧
      (⟨true, [], true⟩ : PoolState Nat Nat).tasks = []) ∧
    thread_pool_worker_run
        ((⟨true, [(1, 2)], false⟩ : PoolState Nat Nat).tasks.length + 1)
        (⟨true, [(1, 2)], false⟩ : PoolState Nat Nat) =
      ((⟨true, [(1, 2)], false⟩ : PoolState Nat Nat).tasks, true) :=
  ⟨(thread_pool_worker_exit_drain ⟨true, [], true⟩).1 rfl,
   (thread_pool_worker_exit_drain ⟨true, [(1, 2)], false⟩).2 rfl⟩

/-- Claim C2: a `thread_pool_submit` on a pool whose shutdown flag is set
returns `false`, leaves the pool state unchanged (no task node appended, so
the submitted function never reaches a worker), and signals nobody. -/
theorem thread_pool_submit_rejects_after_shutdown {F A : Type} (p : PoolState F A)
    (f : F) (a : A) (allocOk : Bool) (h : p.shutdown_flag = true) :
    thread_pool_submit (some p) (some f) a allocOk = (false, some p, false) := by
  simp [thread_pool_submit, h]

theorem thread_pool_submit_rejects_after_shutdown_witness :
    thread_pool_submit (some (⟨true, [], true⟩ : PoolState Nat Nat)) (some 1) 2 true =
      (false, some ⟨true, [], true⟩, false) :=
  thread_pool_submit_rejects_after_shutdown ⟨true, [], true⟩ 1 2 true rfl

/-- Claim C10: `thread_pool_submit` returns `false` whenever the pool pointer
or the task function pointer is NULL, regardless of the shutdown flag, and in
that case nothing is enqueued and no worker is signaled. -/
theorem thread_pool_submit_null_rejects {F A : Type} (pool : Option (PoolState F A))
    (fn : Option F) (a : A) (allocOk : Bool) (h : pool = none ∨ fn = none) :
    thread_pool_submit pool fn a allocOk = (false, pool, false) := by
  cases pool with
  | none => rfl
  | some p =>
    cases fn with
    | none => rfl
    | some f => rcases h with h | h <;> simp at h

theorem thread_pool_submit_null_rejects_witness :
    thread_pool_submit (none : Option (PoolState Nat Nat)) (some 1) 2 true =
      (false, none, false) :=
  thread_pool_submit_null_rejects none (some 1) 2 true (Or.inl rfl)

/-- Claim C9: the public operations tolerate a NULL object pointer:
`queue_pop(NULL)` returns NULL without blocking, `queue_is_empty(NULL)` is
true, `queue_size(NULL)` is 0, `Thread_is_alive(NULL)` is false, and no state
is touched (the returned queue state is the unchanged NULL). -/
theorem null_object_tolerance (V : Type) :
    queue_pop_c (none : Option (QueueState V)) = some (none, none) ∧
    queue_is_empty_c (none : Option (QueueState V)) = true ∧
    queue_size_c (none : Option (QueueState V)) = 0 ∧
    Thread_is_alive none = false :=
  ⟨rfl, rfl, rfl, rfl⟩

/-- Claim C6: when `thread_create` fails to start native execution
(`pthread_create`/`CreateThread` fails), it returns `-1`, the handle is left
with `started = false` (the freshly initialised, never-started state), the
trampoline block is freed, and no native thread is spawned so the closure
never runs. -/
theorem thread_create_native_failure_clean (t : ThreadState) :
    thread_create (some t) true true false =
      ⟨-1, some Thread_init_state, true, true, false⟩ ∧
    Thread_init_state.started = false :=
  ⟨rfl, rfl⟩

/-- Claim C7: `Thread_join` is a no-op on a never-started or already-joined
handle, joining twice equals joining once, and the `thread_join` wrapper
returns 0 while performing exactly the `Thread_join` state change. -/
theorem thread_join_idempotent_noop (t : ThreadState) :
    (t.started = false → Thread_join t = t) ∧
    (t.joined = true → Thread_join t = t) ∧
    Thread_join (Thread_join t) = Thread_join t ∧
    thread_join (some t) = (0, some (Thread_join t)) := by
  refine ⟨?_, ?_, ?_, ?_⟩
  · intro h
    simp [Thread_join, h]
  · intro h
    simp [Thread_join, h]
  · unfold Thread_join
    by_cases h1 : t.started = false ∨ t.joined = true
    · simp [h1]
    · simp [h1]
  · by_cases h1 : t.started = false ∨ t.joined = true <;>
      simp [thread_join, Thread_join, h1]

theorem thread_join_idempotent_noop_witness :
    Thread_join ⟨false, false, false, false, "Thread"⟩ =
      ⟨false, false, false, false, "Thread"⟩ ∧
    Thread_join ⟨true, true, false, false, "Thread"⟩ =
      ⟨true, true, false, false, "Thread"⟩ :=
  ⟨(thread_join_idempotent_noop ⟨false, false, false, false, "Thread"⟩).1 rfl,
   (thread_join_idempotent_noop ⟨true, true, false, false, "Thread"⟩).2.1 rfl⟩

/-- Claim C5, counterexample: a node-allocation failure in `queue_push` is NOT
surfaced to the caller — the function returns `void`, so the failing call's
returned value is identical to a successful call's, the queue is left
unchanged and the item silently dropped; by contrast the spec-modelled push
does distinguish the two outcomes. -/
theorem queue_push_alloc_failure_not_surfaced :
    ¬ push_failure_surfaced (queue_create Nat) 0 ∧
    (queue_push_call false (queue_create Nat) 0).1 = queue_create Nat ∧
    spec_queue_push false (queue_create Nat) 0 ≠ spec_queue_push true (queue_create Nat) 0 := by
  refine ⟨fun h => h rfl, rfl, fun h => ?_⟩
  rw [show spec_queue_push false (queue_create Nat) 0 = Except.error () from rfl,
    show spec_queue_push true (queue_create Nat) 0 =
      Except.ok (queue_push true (queue_create Nat) 0) from rfl] at h
  exact Except.noConfusion h

/-- Claim C5, amended: `queue_push` fails only on node-allocation failure; on
such a failure the item is dropped and the queue left unchanged, but the
failure is silently swallowed — `queue_push` returns `void`, so the caller
observes no error from the call itself. -/
theorem queue_push_silent_drop_on_alloc_failure {V : Type} (q : QueueState V) (v : V)
    (hwf : q.tailNull = true ↔ q.elems = []) :
    queue_push false q v = q ∧
    queue_push_call false q v = (q, ()) ∧
    (queue_push true q v).elems = q.elems ++ [v] :=
  ⟨rfl, rfl, (queue_push_true_elems q v hwf).1⟩

theorem queue_push_silent_drop_on_alloc_failure_witness :
    queue_push false (queue_create Nat) 7 = queue_create Nat ∧
    queue_push_call false (queue_create Nat) 7 = (queue_create Nat, ()) ∧
    (queue_push true (queue_create Nat) 7).elems = (queue_create Nat).elems ++ [7] :=
  queue_push_silent_drop_on_alloc_failure (queue_create Nat) 7 (by simp [queue_create])

end C99Extend
